import Mathlib

/-!
A shallow embedding of the interception-and-dispatch pipeline of the
`gobatis` repository (plugin chain, plugin manager, mapper-method
dispatch, pagination plugin), together with theorems settling the
frozen claims about it.

Strings are modelled as Lean `String` over their character lists; Go's
byte indexing agrees with character indexing on the ASCII inputs used
here.  Go `int`/`int64` are modelled as unbounded `Int` (no claim
depends on overflow, and the plugin validates its numeric inputs into
small ranges).
-/

namespace GoBatis

/-! ## Go string primitives used by the source -/

/-- `strings.HasPrefix pat s`-style check on character lists:
`startsWithL pat l` is true when `pat` is an initial segment of `l`. -/
def startsWithL : List Char → List Char → Bool
  | [], _ => true
  | _ :: _, [] => false
  | p :: ps, c :: cs => p == c && startsWithL ps cs

/-- All indices `i` of `l` (in increasing order) at which the pattern
`pat` occurs as a contiguous segment. -/
def occIndices (pat l : List Char) : List Nat :=
  (List.range (l.length + 1)).filter (fun i => startsWithL pat (l.drop i))

/-- Go `strings.Index s pat`: index of the first occurrence of `pat` in
`s`, `none` standing for Go's `-1`. -/
def strIndex (s pat : String) : Option Nat :=
  (occIndices pat.toList s.toList).head?

/-- Go `strings.LastIndex s pat`: index of the last occurrence of `pat`
in `s`, `none` standing for Go's `-1`. -/
def strLastIndex (s pat : String) : Option Nat :=
  (occIndices pat.toList s.toList).getLast?

/-- Go `strings.Contains s pat`. -/
def containsStr (s pat : String) : Bool :=
  !(occIndices pat.toList s.toList).isEmpty

/-- Go `strings.ToLower` (ASCII model: `Char.toLower` lowercases exactly
the ASCII letters, matching Go on ASCII input). -/
def goToLower (s : String) : String :=
  String.mk (s.toList.map Char.toLower)

/-- Go `strings.ToUpper` (ASCII model). -/
def goToUpper (s : String) : String :=
  String.mk (s.toList.map Char.toUpper)

/-- Whitespace recognised by the model of Go `strings.TrimSpace`. -/
def goIsSpace (c : Char) : Bool :=
  c == ' ' || c == '\t' || c == '\n' || c == '\r' || c == '\x0b' || c == '\x0c'

/-- Go `strings.TrimSpace`. -/
def goTrimSpace (s : String) : String :=
  String.mk (((s.toList.dropWhile goIsSpace).reverse.dropWhile goIsSpace).reverse)

/-! ## Pagination plugin (`PaginationPlugin`, `plugins` package)

Embedded from the second (current) copy in `src/unnamed/part_002`:
`PageRequest`, `validatePageRequest`, `extractPageRequest`,
`isValidColumnName`, `buildCountSQL`, `buildPagedSQL` and the
pagination path of `Intercept`. -/

/-- `PageRequest` struct of the pagination plugin. -/
structure PageRequest where
  Page : Int
  Size : Int
  Offset : Int
  SortBy : String
  SortDir : String
deriving DecidableEq, Repr

/-- `PaginationPlugin.validatePageRequest`. -/
def validatePageRequest (r : PageRequest) : Bool :=
  if r.Page ≤ 0 then false
  else if r.Size ≤ 0 ∨ r.Size > 1000 then false
  else if r.Page > 1000000 then false
  else true

/-- An argument of an intercepted mapper call, as far as
`extractPageRequest` can observe it by reflection: a `*PageRequest`, a
struct exposing integer `Page` and `Size` fields, or anything else. -/
inductive MapperArg where
  | pageReq : PageRequest → MapperArg
  | pageStruct : Int → Int → MapperArg
  | other : MapperArg
deriving DecidableEq, Repr

/-- `PaginationPlugin.extractPageRequest`: scan the arguments; on the
first `*PageRequest` validate it (returning `nil` on failure) and
derive `Offset` from `Page`/`Size` only when the supplied `Offset` is
zero; a plain struct with `Page`/`Size` fields always gets a computed
offset and falls through to later arguments when invalid. -/
def extractPageRequest : List MapperArg → Option PageRequest
  | [] => none
  | MapperArg.pageReq r :: _ =>
      if validatePageRequest r then
        some { r with
          Offset := if r.Offset = 0 ∧ r.Page > 0 then (r.Page - 1) * r.Size
                    else r.Offset }
      else none
  | MapperArg.pageStruct p s :: rest =>
      let r : PageRequest := ⟨p, s, (p - 1) * s, "", ""⟩
      if validatePageRequest r then some r else extractPageRequest rest
  | MapperArg.other :: rest => extractPageRequest rest

/-- Split a character list at every occurrence of `sep` (the segments
between separators, in order; `n` separators yield `n + 1` segments). -/
def splitOnChar (sep : Char) : List Char → List (List Char)
  | [] => [[]]
  | c :: cs =>
      if c == sep then [] :: splitOnChar sep cs
      else
        match splitOnChar sep cs with
        | [] => [[c]]
        | seg :: rest => (c :: seg) :: rest

/-- One segment of the column-name grammar: `[a-zA-Z_][a-zA-Z0-9_]*`. -/
def identOk (s : List Char) : Bool :=
  match s with
  | [] => false
  | c :: cs =>
      (c.isAlpha || c == '_') &&
      cs.all (fun d => d.isAlpha || d.isDigit || d == '_')

/-- `PaginationPlugin.isValidColumnName`: the anchored regular
expression `[a-zA-Z_][a-zA-Z0-9_]*(\.[a-zA-Z_][a-zA-Z0-9_]*)?`,
expressed by splitting on `.`. -/
def isValidColumnName (col : String) : Bool :=
  match splitOnChar '.' col.toList with
  | [a] => identOk a
  | [a, b] => identOk a && identOk b
  | _ => false

/-- The sorting stage of `PaginationPlugin.buildPagedSQL`: append an
`ORDER BY` clause when a sort column was requested, passes the
identifier check, and the SQL does not already contain `order by`. -/
def pagedSQLBase (originalSQL : String) (req : PageRequest) : String :=
  if req.SortBy = "" then originalSQL
  else if !isValidColumnName req.SortBy then originalSQL
  else
    let sortDir := if goToUpper req.SortDir = "DESC" then "DESC" else "ASC"
    if !containsStr (goToLower originalSQL) "order by" then
      originalSQL ++ " ORDER BY " ++ req.SortBy ++ " " ++ sortDir
    else originalSQL

/-- `PaginationPlugin.buildPagedSQL`: the sorting stage followed by the
unconditional `LIMIT <size> OFFSET <offset>` suffix. -/
def buildPagedSQL (originalSQL : String) (req : PageRequest) : String :=
  pagedSQLBase originalSQL req ++
    " LIMIT " ++ toString req.Size ++ " OFFSET " ++ toString req.Offset

/-- `PaginationPlugin.buildCountSQL`: lowercase the *trimmed* SQL, find
the first `"from"` and the last `"order by"` in that copy, then slice
the *original* string between those indices and prefix
`SELECT COUNT(*) `. -/
def buildCountSQL (originalSQL : String) : String :=
  let lowerSQL := goToLower (goTrimSpace originalSQL)
  match strIndex lowerSQL "from" with
  | none => ""
  | some fromIndex =>
      let fromClause :=
        match strLastIndex lowerSQL "order by" with
        | some obi =>
            if fromIndex < obi then
              String.mk ((originalSQL.toList.drop fromIndex).take (obi - fromIndex))
            else String.mk (originalSQL.toList.drop fromIndex)
        | none => String.mk (originalSQL.toList.drop fromIndex)
      "SELECT COUNT(*) " ++ fromClause

/-- The count-SQL builder as the claim words it: cut at the *first*
occurrence of `order by`, indices taken case-insensitively on the
original SQL.  Used only to compare `buildCountSQL` against the claim. -/
def specCountSQLFirst (originalSQL : String) : String :=
  let lowerSQL := goToLower originalSQL
  match strIndex lowerSQL "from" with
  | none => ""
  | some fromIndex =>
      let fromClause :=
        match strIndex lowerSQL "order by" with
        | some obi =>
            if fromIndex < obi then
              String.mk ((originalSQL.toList.drop fromIndex).take (obi - fromIndex))
            else String.mk (originalSQL.toList.drop fromIndex)
        | none => String.mk (originalSQL.toList.drop fromIndex)
      "SELECT COUNT(*) " ++ fromClause

/-- The count-SQL builder with the claim's shape but cutting at the
*last* occurrence of `order by` — what the source actually computes on
whitespace-trimmed input. -/
def specCountSQLLast (originalSQL : String) : String :=
  let lowerSQL := goToLower originalSQL
  match strIndex lowerSQL "from" with
  | none => ""
  | some fromIndex =>
      let fromClause :=
        match strLastIndex lowerSQL "order by" with
        | some obi =>
            if fromIndex < obi then
              String.mk ((originalSQL.toList.drop fromIndex).take (obi - fromIndex))
            else String.mk (originalSQL.toList.drop fromIndex)
        | none => String.mk (originalSQL.toList.drop fromIndex)
      "SELECT COUNT(*) " ++ fromClause

/-- The observable outcome of the pagination path of
`PaginationPlugin.Intercept`: the rewritten SQL, the effective offset,
and the `PageResult` envelope fields (`Data` carries the downstream
rows and is not modelled). -/
structure InterceptOut where
  pagedSQL : String
  offset : Int
  total : Int
  page : Int
  size : Int
  totalPages : Int
  hasNext : Bool
  hasPrev : Bool
deriving DecidableEq, Repr

/-- `PaginationPlugin.executeCountQuery` is a stub in the source: it
ignores the count SQL and always returns `100, nil`. -/
def executeCountQueryTotal : Int := 100

/-- The pagination path of `PaginationPlugin.Intercept`: `none` when no
(valid) page request is found in the arguments or no SQL is attached to
the invocation, in which case the plugin just proceeds; otherwise the
count query runs (stubbed to 100), the SQL is rewritten by
`buildPagedSQL` with the extracted request, and the result is wrapped
in a `PageResult` envelope. -/
def paginationIntercept (args : List MapperArg) (originalSQL : String) :
    Option InterceptOut :=
  match extractPageRequest args with
  | none => none
  | some req =>
      if originalSQL = "" then none
      else
        let total := executeCountQueryTotal
        let tp := Int.tdiv (total + req.Size - 1) req.Size
        some
          { pagedSQL := buildPagedSQL originalSQL req
            offset := req.Offset
            total := total
            page := req.Page
            size := req.Size
            totalPages := tp
            hasNext := decide (req.Page < tp)
            hasPrev := decide (req.Page > 1) }

/-! ## Mapper method dispatch (`MapperProxy`, `src/unnamed/part_005`)

`MapperProxy.invoke` classifies a call from the method name and the
declared return shape; only the classification logic is embedded (the
session round trip and reflection marshalling are not the subject of
any claim). -/

/-- The reflection kind of the first declared return type, as far as
the dispatcher inspects it. -/
inductive RetKind where
  | slice
  | ptr
  | scalar
deriving DecidableEq, Repr

/-- Go `strings.HasPrefix s pat`. -/
def goHasPrefixStr (s pat : String) : Bool :=
  startsWithL pat.toList s.toList

/-- `MapperProxy.isSelectMethod`: a read-prefixed name, or — fallback —
any method whose first declared return type is a slice or a pointer. -/
def isSelectMethod (methodName : String) (numOut : Nat) (firstRet : RetKind) :
    Bool :=
  let m := goToLower methodName
  if goHasPrefixStr m "get" || goHasPrefixStr m "find" ||
     goHasPrefixStr m "select" || goHasPrefixStr m "query" ||
     goHasPrefixStr m "list" then
    true
  else if numOut > 0 && (firstRet == RetKind.slice || firstRet == RetKind.ptr) then
    true
  else false

/-- `MapperProxy.isSelectListMethod`: the first declared return type is
a slice. -/
def isSelectListMethod (numOut : Nat) (firstRet : RetKind) : Bool :=
  numOut > 0 && firstRet == RetKind.slice

/-- `MapperProxy.isInsertMethod`. -/
def isInsertMethod (methodName : String) : Bool :=
  let m := goToLower methodName
  goHasPrefixStr m "insert" || goHasPrefixStr m "add" ||
  goHasPrefixStr m "create" || goHasPrefixStr m "save"

/-- `MapperProxy.isUpdateMethod`. -/
def isUpdateMethod (methodName : String) : Bool :=
  let m := goToLower methodName
  goHasPrefixStr m "update" || goHasPrefixStr m "modify" ||
  goHasPrefixStr m "edit"

/-- `MapperProxy.isDeleteMethod`. -/
def isDeleteMethod (methodName : String) : Bool :=
  let m := goToLower methodName
  goHasPrefixStr m "delete" || goHasPrefixStr m "remove"

/-- How `MapperProxy.invoke` routes a call. -/
inductive CallKind where
  | selectOne
  | selectList
  | insert
  | update
  | delete
  | unsupported : String → CallKind
deriving DecidableEq, Repr

/-- The routing decision of `MapperProxy.invoke`: `none` when the
method declares no return values (`invoke` returns before dispatching);
otherwise the `if/else if` cascade over the classifier predicates, with
`unsupported` carrying the method name (the
`"unsupported method: %s"` error). -/
def invokeKind (methodName : String) (numOut : Nat) (firstRet : RetKind) :
    Option CallKind :=
  if numOut = 0 then none
  else some (
    if isSelectMethod methodName numOut firstRet then
      if isSelectListMethod numOut firstRet then CallKind.selectList
      else CallKind.selectOne
    else if isInsertMethod methodName then CallKind.insert
    else if isUpdateMethod methodName then CallKind.update
    else if isDeleteMethod methodName then CallKind.delete
    else CallKind.unsupported methodName)

/-- The routing table exactly as the claim words it: prefix families
decide the kind, reads split one/many by the slice shape, and a name
matching no family is an `UnsupportedMethod` error.  Used only to
compare `invokeKind` against the claim. -/
def specDispatchKind (methodName : String) (numOut : Nat) (firstRet : RetKind) :
    Option CallKind :=
  if numOut = 0 then none
  else some (
    let m := goToLower methodName
    if goHasPrefixStr m "get" || goHasPrefixStr m "find" ||
       goHasPrefixStr m "select" || goHasPrefixStr m "query" ||
       goHasPrefixStr m "list" then
      if firstRet == RetKind.slice then CallKind.selectList else CallKind.selectOne
    else if isInsertMethod methodName then CallKind.insert
    else if isUpdateMethod methodName then CallKind.update
    else if isDeleteMethod methodName then CallKind.delete
    else CallKind.unsupported methodName)

/-- The routing table as the amended claim words it: the read check
additionally routes any slice- or pointer-returning method as a read,
taking priority over the create/update/delete prefix families. -/
def amendedDispatchKind (methodName : String) (numOut : Nat)
    (firstRet : RetKind) : Option CallKind :=
  if numOut = 0 then none
  else some (
    let m := goToLower methodName
    if goHasPrefixStr m "get" || goHasPrefixStr m "find" ||
       goHasPrefixStr m "select" || goHasPrefixStr m "query" ||
       goHasPrefixStr m "list" ||
       (firstRet == RetKind.slice || firstRet == RetKind.ptr) then
      if firstRet == RetKind.slice then CallKind.selectList else CallKind.selectOne
    else if isInsertMethod methodName then CallKind.insert
    else if isUpdateMethod methodName then CallKind.update
    else if isDeleteMethod methodName then CallKind.delete
    else CallKind.unsupported methodName)

/-! ## Plugin manager (`PluginManager`, `src/plugins/manager.go`)

`AddPlugin` appends and re-sorts the slice with `sort.Slice` and the
comparison `plugins[i].GetOrder() < plugins[j].GetOrder()`;
`GetPlugins` returns a copy of the slice.  The Go standard library's
`sort.Slice` is modelled by its documented contract — the result is a
permutation of the input ordered by the comparison — which expressly
does *not* guarantee stability (`sort.SliceStable` is the stable
variant, and `AddPlugin` does not use it). -/

/-- A registered plugin as the manager observes it: a registration
identity and its `GetOrder()` value. -/
structure PluginOrd where
  pid : Nat
  order : Int
deriving DecidableEq, Repr

/-- The documented contract of Go `sort.Slice` under the comparison
`a.order < b.order`: the output is a permutation of the input that is
ordered ascending by `order`.  Stability is not part of the contract. -/
def sortSliceContract (f : List PluginOrd → List PluginOrd) : Prop :=
  ∀ l : List PluginOrd,
    (f l).Perm l ∧ (f l).Pairwise (fun a b => a.order ≤ b.order)

/-- `PluginManager.AddPlugin`, parameterised by the sorting function
standing for `sort.Slice`: append, then re-sort. -/
def addPlugin (f : List PluginOrd → List PluginOrd)
    (pm : List PluginOrd) (p : PluginOrd) : List PluginOrd :=
  f (pm ++ [p])

/-- The manager state after a sequence of `AddPlugin` calls, starting
from the empty slice of `NewPluginManager`; `GetPlugins` returns this
sequence (as a copy). -/
def registryAfter (f : List PluginOrd → List PluginOrd)
    (adds : List PluginOrd) : List PluginOrd :=
  adds.foldl (addPlugin f) []

/-- Insert `x` into `l` *before* the first element of order ≥ `x.order`
(so among equal orders the newcomer lands first).  Building block of a
sorting function that satisfies the `sort.Slice` contract but is not
stable. -/
def insertBeforeTies (x : PluginOrd) : List PluginOrd → List PluginOrd
  | [] => [x]
  | y :: ys =>
      if x.order ≤ y.order then x :: y :: ys else y :: insertBeforeTies x ys

/-- An insertion sort that reverses the relative order of equal-order
elements: a concrete function satisfying the `sort.Slice` contract
while breaking ties against insertion order. -/
def antiStableSort (l : List PluginOrd) : List PluginOrd :=
  l.foldl (fun acc x => insertBeforeTies x acc) []

/-! ## Plugin chain (`PluginChain`, `InvocationContext`, `src/unnamed/part_003`)

The chain drives arbitrary interceptors in continuation-passing style:
`Proceed` rebinds `invocation.Proceed` to `chain.proceedNext`, which
either enters the plugin at `currentIndex` (incrementing the shared
index) or, once the index has passed the last plugin, performs the
terminal call.  An interceptor is modelled by its observable behaviour
during one `Intercept` run: the rollback callbacks it registers on the
context, how many times it calls `invocation.Proceed()`, and what it
returns afterwards.  Errors are modelled structurally so that
"the error contains X" is meaningful. -/

/-- A Go `error` value as the chain builds them: either a leaf message
or the `fmt.Errorf("original error: %v, rollback errors: %v", ...)`
combination of an original error with the rollback failure messages
(rollback callbacks are modelled as returning leaf errors). -/
inductive GoErr where
  | msg : String → GoErr
  | combined : GoErr → List String → GoErr
deriving DecidableEq, Repr

/-- Structural containment of one error value inside another, standing
for "the formatted error text contains the formatted text of `x`". -/
inductive ErrInside : GoErr → GoErr → Prop
  | refl (e : GoErr) : ErrInside e e
  | inOrig {x a : GoErr} {l : List String} :
      ErrInside x a → ErrInside x (GoErr.combined a l)
  | inList {s : String} {a : GoErr} {l : List String} :
      s ∈ l → ErrInside (GoErr.msg s) (GoErr.combined a l)

/-- An execution event of one chain run: entry into the `Intercept` of
the plugin at a position, or the terminal call. -/
inductive Event where
  | intercept : Nat → Event
  | terminal : Event
deriving DecidableEq, Repr

/-- A rollback callback registered through
`InvocationContext.AddRollbackFunc`: its identity and the error it
returns when executed (`none` = nil). -/
structure RollbackFn where
  rid : Nat
  outcome : Option String
deriving DecidableEq, Repr

/-- What an interceptor's `Intercept` returns after its
`invocation.Proceed()` calls: the result of its last `Proceed()` call
(`passthrough`), its own error, or its own non-error result. -/
inductive IRet where
  | passthrough
  | ownError : GoErr → IRet
  | ownOk
deriving DecidableEq, Repr

/-- The observable behaviour of one interceptor (`Plugin.Intercept`):
the rollback callbacks it registers, the number of times it calls
`invocation.Proceed()`, and its return. -/
structure Interceptor where
  order : Int
  rollbacks : List RollbackFn
  proceedCalls : Nat
  ret : IRet
deriving DecidableEq, Repr

/-- The mutable state shared by one chain execution: the chain's
`currentIndex`, the context's `RollbackFuncs` registration list, and
the trace of events so far. -/
structure ChainState where
  currentIndex : Nat
  rollbackFuncs : List RollbackFn
  events : List Event
deriving DecidableEq, Repr

/-- Interpret an interceptor's return against the result `r` of its
last `Proceed()` call (`none` when it never called `Proceed()`, since
Go local variables start as `nil`). -/
def interpretRet : IRet → Option GoErr → Option GoErr
  | IRet.passthrough, r => r
  | IRet.ownError e, _ => some e
  | IRet.ownOk, _ => none

/-- The state change of entering `Intercept` of plugin `p` at position
`k`: `currentIndex` moves past `k`, the plugin's rollback callbacks are
registered, the entry is recorded. -/
def enterState (st : ChainState) (k : Nat) (p : Interceptor) : ChainState :=
  { currentIndex := k + 1
    rollbackFuncs := st.rollbackFuncs ++ p.rollbacks
    events := st.events ++ [Event.intercept k] }

/-- Run `step` (one `invocation.Proceed()` call) `n` times in sequence,
returning the result of the last call (`none` for zero calls). -/
def iterChain (step : ChainState → Option GoErr × ChainState) :
    Nat → ChainState → Option GoErr × ChainState
  | 0, st => (none, st)
  | 1, st => step st
  | n + 2, st => iterChain step (n + 1) (step st).2

/-- `PluginChain.proceedNext`, with explicit fuel (the recursion is
bounded because `currentIndex` strictly increases at every plugin
entry; `PluginChain.Proceed` supplies sufficient fuel).  At an index
past the plugin list the terminal call runs — `invokeTarget`, i.e. the
original `invocation.Proceed` — producing `tOut`; otherwise the plugin
at `currentIndex` runs, its `Proceed()` calls re-entering
`proceedNext`. -/
def proceedNextF (ps : List Interceptor) (tOut : Option GoErr) :
    Nat → ChainState → Option GoErr × ChainState
  | 0, st => (some (GoErr.msg "model: out of fuel"), st)
  | f + 1, st =>
      if h : st.currentIndex < ps.length then
        let p := ps.get ⟨st.currentIndex, h⟩
        let st1 := enterState st st.currentIndex p
        let out := iterChain (proceedNextF ps tOut f) p.proceedCalls st1
        (interpretRet p.ret out.1, out.2)
      else
        (tOut, { st with events := st.events ++ [Event.terminal] })

/-- The loop of `InvocationContext.ExecuteRollback`: run the registered
callbacks from the last index down to the first, collecting (not
short-circuiting on) the individual errors.  Returns the callbacks in
the order they were executed, and the collected errors. -/
def runRollbackLoop : List RollbackFn → List RollbackFn × List String
  | [] => ([], [])
  | f :: fs =>
      let out := runRollbackLoop fs
      (out.1 ++ [f],
       out.2 ++ (match f.outcome with | some e => [e] | none => []))

/-- The `PluginChain` struct: the plugin snapshot, the shared cursor
and the one-shot `completed` flag. -/
structure Chain where
  plugins : List Interceptor
  currentIndex : Nat
  completed : Bool
deriving DecidableEq, Repr

/-- `NewPluginChain`: fresh cursor, not completed. -/
def newChain (ps : List Interceptor) : Chain := ⟨ps, 0, false⟩

/-- Everything observable about one `PluginChain.Proceed` call: the
returned error component (`none` = nil error), the chain afterwards,
the run's event trace, the raw error produced by the plugin run before
rollback handling, the context's final rollback registration list, the
callbacks executed by rollback in execution order, and the collected
rollback errors. -/
structure ProceedOutcome where
  value : Option GoErr
  chain : Chain
  events : List Event
  raw : Option GoErr
  registered : List RollbackFn
  rollbacksRun : List RollbackFn
  rollbackErrs : List String
deriving DecidableEq, Repr

/-- `PluginChain.Proceed`: reject a completed chain; otherwise run
`proceedNext` from the current cursor; on a non-nil error execute the
context's rollback callbacks, and if any of them failed return the
combined error *before* the `chain.completed = true` assignment (the
early `return` at the `rollback errors` branch skips it); otherwise
mark the chain completed and return the run's result.  `tOut` is the
outcome of the terminal call (the original `invocation.Proceed`), and
`ctx` the rollback callbacks already registered on the invocation's
context when `Proceed` is entered. -/
def Chain.Proceed (ch : Chain) (tOut : Option GoErr) (ctx : List RollbackFn) :
    ProceedOutcome :=
  if ch.completed then
    { value := some (GoErr.msg "plugin chain already completed")
      chain := ch
      events := []
      raw := none
      registered := ctx
      rollbacksRun := []
      rollbackErrs := [] }
  else
    let st0 : ChainState := ⟨ch.currentIndex, ctx, []⟩
    let fuel := ch.plugins.length + 1 - ch.currentIndex
    let out := proceedNextF ch.plugins tOut fuel st0
    let rb :=
      match out.1 with
      | some _ => runRollbackLoop out.2.rollbackFuncs
      | none => ([], [])
    { value :=
        match out.1 with
        | some e => if rb.2 = [] then some e else some (GoErr.combined e rb.2)
        | none => none
      chain :=
        { ch with
          currentIndex := out.2.currentIndex
          completed :=
            match out.1 with
            | some _ => if rb.2 = [] then true else false
            | none => true }
      events := out.2.events
      raw := out.1
      registered := out.2.rollbackFuncs
      rollbacksRun := rb.1
      rollbackErrs := rb.2 }

/-- The reference run of a chain suffix under the single-`Proceed()`
discipline: starting at position `k` with the plugin suffix `ps`, each
plugin either stops the chain (zero `Proceed()` calls) or hands over to
the rest (one call); an exhausted suffix is the terminal call.  Returns
the produced error and the events of the run.  Proof-level companion of
`proceedNextF`. -/
def runSeq (tOut : Option GoErr) : List Interceptor → Nat →
    Option GoErr × List Event
  | [], _ => (tOut, [Event.terminal])
  | p :: ps, k =>
      if p.proceedCalls = 0 then
        (interpretRet p.ret none, [Event.intercept k])
      else
        let out := runSeq tOut ps (k + 1)
        (interpretRet p.ret out.1, Event.intercept k :: out.2)

/-- The number of plugins of `ps` that execute when a run under the
single-`Proceed()` discipline enters the suffix `ps`: plugins run one
after another until the first one that does not call `Proceed()`. -/
def execCount : List Interceptor → Nat
  | [] => 0
  | p :: ps => if p.proceedCalls = 0 then 1 else execCount ps + 1

/-- The envelope properties asserted by claim C7 for an accepted page
request, with the total-pages field characterised as the true ceiling
of `total / size` (`totalPages` is the least page count covering
`total` rows) rather than by the source's arithmetic expression. -/
def PageEnvelopeSpec (req : PageRequest) (out : InterceptOut) : Prop :=
  out.offset = (req.Page - 1) * req.Size ∧
  out.total = executeCountQueryTotal ∧
  out.page = req.Page ∧
  out.size = req.Size ∧
  out.total ≤ out.totalPages * out.size ∧
  (out.totalPages - 1) * out.size < out.total ∧
  (out.hasNext = true ↔ out.page < out.totalPages) ∧
  (out.hasPrev = true ↔ 1 < out.page)

/-- A chain whose single interceptor fails and registers a rollback
callback that itself fails: the input on which `PluginChain.Proceed`
returns through the rollback-errors branch. -/
def c4ChainPlugins : List Interceptor :=
  [⟨0, [⟨1, some "rollback failed"⟩], 0, IRet.ownError (GoErr.msg "boom")⟩]

end GoBatis

namespace GoBatis

/-- C9 sanity check on a concrete injection attempt. -/
example : isValidColumnName "name; DROP TABLE x;" = false := by decide

example : isValidColumnName "users.name" = true := by decide

example : isValidColumnName "a.b.c" = false := by decide

example :
    buildPagedSQL "SELECT * FROM users" ⟨3, 10, 20, "", ""⟩ =
      "SELECT * FROM users LIMIT 10 OFFSET 20" := by rfl

example :
    buildCountSQL "SELECT a FROM t ORDER BY a" = "SELECT COUNT(*) FROM t " := by
  rfl

example : Int.tdiv 109 10 = 10 := by decide

example : invokeKind "FindByID" 2 RetKind.ptr = some CallKind.selectOne := by rfl

example : invokeKind "ListAll" 2 RetKind.slice = some CallKind.selectList := by
  rfl

example : invokeKind "InsertUser" 2 RetKind.scalar = some CallKind.insert := by
  rfl

example :
    invokeKind "Frobnicate" 2 RetKind.scalar =
      some (CallKind.unsupported "Frobnicate") := by rfl

example : invokeKind "Custom" 2 RetKind.ptr = some CallKind.selectOne := by rfl

/-! ## Claim C9 -/

/-- **C9** (confirmed).  For every requested sort column that fails the
identifier grammar, `buildPagedSQL` appends no `ORDER BY` clause: the
paged SQL is exactly the original SQL followed by the
`LIMIT <size> OFFSET <offset>` suffix. -/
theorem c9_no_orderby_on_invalid_column (sql : String) (req : PageRequest)
    (hne : req.SortBy ≠ "") (hbad : isValidColumnName req.SortBy = false) :
    buildPagedSQL sql req =
      sql ++ " LIMIT " ++ toString req.Size ++ " OFFSET " ++ toString req.Offset := by
  unfold buildPagedSQL pagedSQLBase
  simp [hne, hbad]

/-- Witness for C9: the injection attempt `"name; DROP TABLE x;"` is
rejected by the grammar and the paged SQL keeps only the
`LIMIT/OFFSET` suffix. -/
theorem c9_witness :
    ((⟨3, 10, 20, "name; DROP TABLE x;", ""⟩ : PageRequest).SortBy ≠ "" ∧
      isValidColumnName
        (⟨3, 10, 20, "name; DROP TABLE x;", ""⟩ : PageRequest).SortBy = false) ∧
    buildPagedSQL "SELECT * FROM users" ⟨3, 10, 20, "name; DROP TABLE x;", ""⟩ =
      "SELECT * FROM users" ++ " LIMIT " ++ toString (10 : Int) ++
        " OFFSET " ++ toString (20 : Int) :=
  ⟨⟨by decide, by decide⟩,
   c9_no_orderby_on_invalid_column "SELECT * FROM users"
     ⟨3, 10, 20, "name; DROP TABLE x;", ""⟩ (by decide) (by decide)⟩

/-! ## Claim C6 -/

/-- **C6** (counterexample).  The claim routes every method whose name
matches no prefix family to an `UnsupportedMethod` error; but
`MapperProxy.isSelectMethod` falls back on the return shape, so the
method `Custom` returning `(*T, error)` is routed as a single-row read
while the claim's table calls it unsupported. -/
theorem c6_counterexample :
    invokeKind "Custom" 2 RetKind.ptr = some CallKind.selectOne ∧
    specDispatchKind "Custom" 2 RetKind.ptr =
      some (CallKind.unsupported "Custom") :=
  ⟨rfl, rfl⟩

/-- **C6** (corrected).  The dispatcher's routing agrees everywhere
with the amended table: read prefixes (or — the amendment — a slice or
pointer first return type) route as a read, one/many decided solely by
the slice shape; then the create/update/delete prefix families; only
names matching nothing and returning a scalar yield the
`UnsupportedMethod` error naming the method. -/
theorem c6_dispatch_amended (methodName : String) (numOut : Nat)
    (firstRet : RetKind) :
    invokeKind methodName numOut firstRet =
      amendedDispatchKind methodName numOut firstRet := by
  unfold invokeKind amendedDispatchKind isSelectMethod isSelectListMethod
  by_cases h0 : numOut = 0
  · simp [h0]
  · have hgt : 0 < numOut := Nat.pos_of_ne_zero h0
    simp only [h0, if_false, hgt, decide_eq_true_eq]
    cases firstRet <;>
      by_cases hp : (goHasPrefixStr (goToLower methodName) "get" ||
          goHasPrefixStr (goToLower methodName) "find" ||
          goHasPrefixStr (goToLower methodName) "select" ||
          goHasPrefixStr (goToLower methodName) "query" ||
          goHasPrefixStr (goToLower methodName) "list") = true <;>
      simp [hp, hgt]

/-! ## Claim C8 -/

/-- In a list of at most one element, the first and the last element
coincide. -/
theorem head_eq_getLast_of_short (l : List Nat) (h : l.length ≤ 1) :
    l.head? = l.getLast? := by
  match l with
  | [] => rfl
  | [a] => rfl
  | a :: b :: rest => simp at h

/-- **C8** (counterexample).  On SQL containing two `ORDER BY`
occurrences the source's `buildCountSQL` cuts at the *last* one
(`strings.LastIndex`), keeping the first `ORDER BY` inside the count
query, while the claim demands the cut at the *first* one. -/
theorem c8_counterexample :
    buildCountSQL "SELECT a FROM t ORDER BY a ORDER BY b" =
      "SELECT COUNT(*) FROM t ORDER BY a " ∧
    specCountSQLFirst "SELECT a FROM t ORDER BY a ORDER BY b" =
      "SELECT COUNT(*) FROM t " ∧
    buildCountSQL "SELECT a FROM t ORDER BY a ORDER BY b" ≠
      specCountSQLFirst "SELECT a FROM t ORDER BY a ORDER BY b" :=
  ⟨rfl, rfl, by decide⟩

/-- **C8** (corrected).  On whitespace-trimmed SQL the count variant is
`SELECT COUNT(*)` followed by the slice of the original SQL from the
first case-insensitive `from` up to (but excluding) the *last*
case-insensitive `order by` when that occurs later, else to the end;
when the SQL contains at most one `order by` occurrence this coincides
with the claim's first-occurrence description. -/
theorem c8_count_sql_amended (sql : String) (htrim : goTrimSpace sql = sql) :
    buildCountSQL sql = specCountSQLLast sql ∧
    ((occIndices "order by".toList (goToLower sql).toList).length ≤ 1 →
      buildCountSQL sql = specCountSQLFirst sql) := by
  constructor
  · unfold buildCountSQL specCountSQLLast
    rw [htrim]
  · intro hone
    unfold buildCountSQL specCountSQLFirst strIndex strLastIndex
    rw [htrim]
    have h2 := head_eq_getLast_of_short _ hone
    simp only [← h2]

/-- Witness for C8: a single-`ORDER BY` query, already trimmed, on
which the source agrees with both descriptions. -/
theorem c8_witness :
    (goTrimSpace "SELECT a FROM t ORDER BY a" = "SELECT a FROM t ORDER BY a" ∧
      (occIndices "order by".toList
        (goToLower "SELECT a FROM t ORDER BY a").toList).length ≤ 1) ∧
    (buildCountSQL "SELECT a FROM t ORDER BY a" =
        specCountSQLLast "SELECT a FROM t ORDER BY a" ∧
      ((occIndices "order by".toList
          (goToLower "SELECT a FROM t ORDER BY a").toList).length ≤ 1 →
        buildCountSQL "SELECT a FROM t ORDER BY a" =
          specCountSQLFirst "SELECT a FROM t ORDER BY a")) :=
  ⟨⟨by decide, by decide⟩, c8_count_sql_amended "SELECT a FROM t ORDER BY a" (by decide)⟩

/-! ## Claims C7 and C10 -/

/-- The numeric bounds guaranteed by a passing
`validatePageRequest`. -/
theorem validate_bounds (r : PageRequest) (hv : validatePageRequest r = true) :
    0 < r.Page ∧ 0 < r.Size ∧ r.Size ≤ 1000 ∧ r.Page ≤ 1000000 := by
  unfold validatePageRequest at hv
  split_ifs at hv with h1 h2 h3
  all_goals first
    | exact absurd hv Bool.false_ne_true
    | omega

/-- The source's total-pages arithmetic `(total + size - 1) / size`
(Go integer division) is the ceiling of `total / size`: it covers
`total` rows, and one page fewer does not. -/
theorem tdiv_ceil_bounds (total s : Int) (hs : 0 < s) (ht : 0 ≤ total) :
    total ≤ Int.tdiv (total + s - 1) s * s ∧
    (Int.tdiv (total + s - 1) s - 1) * s < total := by
  have hnum : 0 ≤ total + s - 1 := by omega
  have heq : Int.tdiv (total + s - 1) s = (total + s - 1) / s :=
    Int.tdiv_eq_ediv hnum (le_of_lt hs)
  have hadd := Int.ediv_add_emod (total + s - 1) s
  have hmodnn := Int.emod_nonneg (total + s - 1) (by omega : s ≠ 0)
  have hmodlt := Int.emod_lt_of_pos (total + s - 1) hs
  have hcomm : ((total + s - 1) / s) * s = s * ((total + s - 1) / s) :=
    mul_comm _ _
  have hexp : ((total + s - 1) / s - 1) * s = ((total + s - 1) / s) * s - s := by
    ring
  rw [heq]
  constructor
  · linarith
  · linarith

/-- **C7** (counterexample).  The claim asserts
`offset = (page-1)*size` for *every* accepted request; but a
`*PageRequest` argument carrying the pre-set `Offset` 7 with
`page = 3, size = 10` is accepted and paged with `OFFSET 7`, not the
claimed `(3-1)*10 = 20`. -/
theorem c7_counterexample :
    paginationIntercept [MapperArg.pageReq ⟨3, 10, 7, "", ""⟩] "SELECT * FROM t" =
      some ⟨"SELECT * FROM t LIMIT 10 OFFSET 7", 7, 100, 3, 10, 10, true, true⟩ ∧
    (7 : Int) ≠ (3 - 1) * 10 :=
  ⟨rfl, by decide⟩

/-- **C7** (corrected).  For every accepted page request whose `Offset`
field is zero, the pagination interceptor produces the claimed
envelope: `offset = (page-1)*size`, `total` from the count query,
`totalPages = ceil(total/size)`, `hasNext ↔ page < totalPages`,
`hasPrev ↔ page > 1`. -/
theorem c7_envelope_amended (req : PageRequest) (rest : List MapperArg)
    (sql : String) (hv : validatePageRequest req = true)
    (hoff : req.Offset = 0) (hsql : sql ≠ "") :
    ∃ out, paginationIntercept (MapperArg.pageReq req :: rest) sql = some out ∧
      PageEnvelopeSpec req out := by
  obtain ⟨hP, hS, -, -⟩ := validate_bounds req hv
  have hceil := tdiv_ceil_bounds executeCountQueryTotal req.Size hS (by decide)
  unfold paginationIntercept extractPageRequest
  simp only [hv, if_true, hoff, hP, and_self, true_and, if_pos, hsql, if_false,
    executeCountQueryTotal]
  refine ⟨_, rfl, rfl, rfl, rfl, rfl, ?_, ?_, ?_, ?_⟩
  · exact hceil.1
  · exact hceil.2
  · simp
  · simp

/-- Witness for C7: the spec's own instance `total=100, size=10,
page=3` — the envelope is `offset=20, totalPages=10, hasNext=true,
hasPrev=true`. -/
theorem c7_witness :
    (validatePageRequest ⟨3, 10, 0, "", ""⟩ = true ∧
      (⟨3, 10, 0, "", ""⟩ : PageRequest).Offset = 0 ∧ "SELECT * FROM t" ≠ "") ∧
    (∃ out,
      paginationIntercept [MapperArg.pageReq ⟨3, 10, 0, "", ""⟩] "SELECT * FROM t" =
        some out ∧ PageEnvelopeSpec ⟨3, 10, 0, "", ""⟩ out) ∧
    paginationIntercept [MapperArg.pageReq ⟨3, 10, 0, "", ""⟩] "SELECT * FROM t" =
      some ⟨"SELECT * FROM t LIMIT 10 OFFSET 20", 20, 100, 3, 10, 10, true, true⟩ :=
  ⟨⟨by decide, by decide, by decide⟩,
   c7_envelope_amended ⟨3, 10, 0, "", ""⟩ [] "SELECT * FROM t"
     (by decide) (by decide) (by decide),
   rfl⟩

/-- **C10** (confirmed).  A `*PageRequest` argument with a pre-set
non-zero `Offset` keeps that offset — it is used verbatim in the
appended `LIMIT/OFFSET` clause — and `offset = (page-1)*size` is
derived only when the supplied `Offset` is zero. -/
theorem c10_offset_preserved (req : PageRequest) (rest : List MapperArg)
    (sql : String) (hv : validatePageRequest req = true) (hsql : sql ≠ "") :
    ∃ out, paginationIntercept (MapperArg.pageReq req :: rest) sql = some out ∧
      (req.Offset ≠ 0 → out.offset = req.Offset) ∧
      (req.Offset = 0 → out.offset = (req.Page - 1) * req.Size) ∧
      ∃ pre, out.pagedSQL =
        pre ++ " LIMIT " ++ toString req.Size ++ " OFFSET " ++ toString out.offset := by
  obtain ⟨hP, hS, -, -⟩ := validate_bounds req hv
  unfold paginationIntercept extractPageRequest
  by_cases hoff : req.Offset = 0
  · simp only [hv, if_true, hoff, hP, and_self, true_and, if_pos, hsql, if_false]
    refine ⟨_, rfl, ?_, ?_, pagedSQLBase sql _, rfl⟩
    · intro h
      exact absurd rfl h
    · intro _
      rfl
  · have hcond : ¬(req.Offset = 0 ∧ req.Page > 0) := fun h => hoff h.1
    simp only [hv, if_true, hcond, if_neg, if_false, hsql]
    refine ⟨_, rfl, ?_, ?_, pagedSQLBase sql _, rfl⟩
    · intro _
      rfl
    · intro h
      exact absurd h hoff

/-- Witness for C10: the pre-set offset 7 with `page=2, size=50` is
kept and paged verbatim. -/
theorem c10_witness :
    (validatePageRequest ⟨2, 50, 7, "", ""⟩ = true ∧ "SELECT * FROM t" ≠ "") ∧
    (∃ out,
      paginationIntercept [MapperArg.pageReq ⟨2, 50, 7, "", ""⟩] "SELECT * FROM t" =
        some out ∧
      ((⟨2, 50, 7, "", ""⟩ : PageRequest).Offset ≠ 0 → out.offset = 7) ∧
      ((⟨2, 50, 7, "", ""⟩ : PageRequest).Offset = 0 → out.offset = (2 - 1) * 50) ∧
      ∃ pre, out.pagedSQL =
        pre ++ " LIMIT " ++ toString (50 : Int) ++ " OFFSET " ++ toString out.offset) ∧
    paginationIntercept [MapperArg.pageReq ⟨2, 50, 7, "", ""⟩] "SELECT * FROM t" =
      some ⟨"SELECT * FROM t LIMIT 50 OFFSET 7", 7, 100, 2, 50, 2, false, true⟩ :=
  ⟨⟨by decide, by decide⟩,
   c10_offset_preserved ⟨2, 50, 7, "", ""⟩ [] "SELECT * FROM t" (by decide) (by decide),
   rfl⟩

/-! ## Claim C2 -/

/-- `insertBeforeTies` produces a permutation of consing the new
element. -/
theorem insertBeforeTies_perm (x : PluginOrd) (l : List PluginOrd) :
    (insertBeforeTies x l).Perm (x :: l) := by
  induction l with
  | nil => simp [insertBeforeTies]
  | cons y ys ih =>
      unfold insertBeforeTies
      by_cases h : x.order ≤ y.order
      · simp [h]
      · simp only [h, if_false]
        exact (ih.cons y).trans (List.Perm.swap x y ys)

/-- `insertBeforeTies` preserves sortedness by `order`. -/
theorem insertBeforeTies_sorted (x : PluginOrd) (l : List PluginOrd)
    (hl : l.Pairwise (fun a b => a.order ≤ b.order)) :
    (insertBeforeTies x l).Pairwise (fun a b => a.order ≤ b.order) := by
  induction l with
  | nil => simp [insertBeforeTies]
  | cons y ys ih =>
      rw [List.pairwise_cons] at hl
      obtain ⟨hy, hys⟩ := hl
      unfold insertBeforeTies
      by_cases h : x.order ≤ y.order
      · simp only [h, if_true]
        refine List.Pairwise.cons ?_ (List.Pairwise.cons hy hys)
        intro z hz
        rcases List.mem_cons.mp hz with hz | hz
        · rw [hz]
          exact h
        · exact le_trans h (hy z hz)
      · simp only [h, if_false]
        refine List.Pairwise.cons ?_ (ih hys)
        intro z hz
        have hz2 : z ∈ x :: ys := (insertBeforeTies_perm x ys).mem_iff.mp hz
        rcases List.mem_cons.mp hz2 with hz2 | hz2
        · rw [hz2]
          omega
        · exact hy z hz2

/-- The fold underlying `antiStableSort`: starting from a sorted
accumulator it yields a sorted permutation of accumulator plus
input. -/
theorem antiStableSort_fold (l : List PluginOrd) :
    ∀ acc : List PluginOrd, acc.Pairwise (fun a b => a.order ≤ b.order) →
      (l.foldl (fun a x => insertBeforeTies x a) acc).Perm (acc ++ l) ∧
      (l.foldl (fun a x => insertBeforeTies x a) acc).Pairwise
        (fun a b => a.order ≤ b.order) := by
  induction l with
  | nil =>
      intro acc hacc
      refine ⟨?_, hacc⟩
      simp
  | cons x xs ih =>
      intro acc hacc
      have hstep := ih (insertBeforeTies x acc) (insertBeforeTies_sorted x acc hacc)
      refine ⟨?_, hstep.2⟩
      have h1 : (insertBeforeTies x acc ++ xs).Perm ((x :: acc) ++ xs) :=
        (insertBeforeTies_perm x acc).append_right xs
      have h2 : (acc ++ x :: xs).Perm (x :: (acc ++ xs)) := List.perm_middle
      exact hstep.1.trans (h1.trans h2.symm)

/-- `antiStableSort` satisfies the documented `sort.Slice` contract. -/
theorem antiStableSort_contract : sortSliceContract antiStableSort := by
  intro l
  have h := antiStableSort_fold l [] (by simp)
  simpa [antiStableSort] using h

/-- The fold underlying `registryAfter`: for any contract-satisfying
sort, the manager state is a permutation of the plugins added so
far. -/
theorem registryAfter_fold_perm (f : List PluginOrd → List PluginOrd)
    (hf : sortSliceContract f) (adds : List PluginOrd) :
    ∀ acc : List PluginOrd,
      (adds.foldl (addPlugin f) acc).Perm (acc ++ adds) := by
  induction adds with
  | nil => intro acc; simp
  | cons a rest ih =>
      intro acc
      have h1 : (List.foldl (addPlugin f) (addPlugin f acc a) rest).Perm
          (addPlugin f acc a ++ rest) := ih (addPlugin f acc a)
      have h2 : (addPlugin f acc a ++ rest).Perm ((acc ++ [a]) ++ rest) :=
        ((hf (acc ++ [a])).1).append_right rest
      have h3 : (acc ++ [a]) ++ rest = acc ++ a :: rest := by simp
      simpa [List.foldl_cons, h3] using h1.trans h2

/-- **C2** (corrected).  For every contract-satisfying model of
`sort.Slice` and every `AddPlugin` sequence, the `GetPlugins` snapshot
is a permutation of the added plugins sorted ascending by
`GetOrder()` — but (see the counterexample) equal-order plugins need
not retain registration order. -/
theorem c2_snapshot_sorted_amended (f : List PluginOrd → List PluginOrd)
    (hf : sortSliceContract f) (adds : List PluginOrd) :
    (registryAfter f adds).Perm adds ∧
    (registryAfter f adds).Pairwise (fun a b => a.order ≤ b.order) := by
  constructor
  · simpa using registryAfter_fold_perm f hf adds []
  · rcases List.eq_nil_or_concat adds with h | ⟨as, a, h⟩
    · simp [h, registryAfter]
    · subst h
      unfold registryAfter
      rw [List.concat_eq_append, List.foldl_append]
      simp only [List.foldl_cons, List.foldl_nil]
      exact (hf _).2

/-- **C2** (counterexample).  `antiStableSort` obeys everything Go
guarantees about `sort.Slice`, yet after registering two plugins with
equal order values (`pid 1` first, `pid 2` second) the snapshot lists
`pid 2` first — the claim's ties-in-registration-order gives
`[⟨1,0⟩, ⟨2,0⟩]`. -/
theorem c2_counterexample :
    sortSliceContract antiStableSort ∧
    registryAfter antiStableSort [⟨1, 0⟩, ⟨2, 0⟩] = [⟨2, 0⟩, ⟨1, 0⟩] :=
  ⟨antiStableSort_contract, by decide⟩

/-- Witness for C2: the amended theorem applied to `antiStableSort` and
a two-plugin registration sequence with distinct orders. -/
theorem c2_witness :
    sortSliceContract antiStableSort ∧
    ((registryAfter antiStableSort [⟨1, 5⟩, ⟨2, 3⟩]).Perm [⟨1, 5⟩, ⟨2, 3⟩] ∧
      (registryAfter antiStableSort [⟨1, 5⟩, ⟨2, 3⟩]).Pairwise
        (fun a b => a.order ≤ b.order)) :=
  ⟨antiStableSort_contract,
   c2_snapshot_sorted_amended antiStableSort antiStableSort_contract [⟨1, 5⟩, ⟨2, 3⟩]⟩

/-! ## Plugin chain: run characterisation -/

example :
    ((newChain [⟨0, [], 2, IRet.passthrough⟩]).Proceed none []).events =
      [Event.intercept 0, Event.terminal, Event.terminal] := by rfl

example :
    ((newChain [⟨0, [], 1, IRet.passthrough⟩, ⟨5, [], 1, IRet.passthrough⟩]).Proceed
        none []).events =
      [Event.intercept 0, Event.intercept 1, Event.terminal] := by rfl

/-- The `ExecuteRollback` loop runs the registered callbacks in exact
reverse registration order. -/
theorem runRollbackLoop_fst (l : List RollbackFn) :
    (runRollbackLoop l).1 = l.reverse := by
  induction l with
  | nil => rfl
  | cons f fs ih => simp [runRollbackLoop, ih]

/-- The `ExecuteRollback` loop collects exactly the failures of the
callbacks, in execution (reverse registration) order, without stopping
at the first failure. -/
theorem runRollbackLoop_snd (l : List RollbackFn) :
    (runRollbackLoop l).2 = l.reverse.filterMap (fun f => f.outcome) := by
  induction l with
  | nil => rfl
  | cons f fs ih =>
      simp only [runRollbackLoop, ih, List.reverse_cons, List.filterMap_append]
      cases h : f.outcome <;> simp [List.filterMap, h]

/-- Closed form of the events of the reference run `runSeq`: the
consecutive plugin entries starting at `k`, followed by the terminal
call exactly when every plugin of the suffix proceeds. -/
theorem runSeq_events (tOut : Option GoErr) (ps : List Interceptor) :
    ∀ k, (runSeq tOut ps k).2 =
      (List.range' k (execCount ps)).map Event.intercept ++
        (if ps.all (fun p => p.proceedCalls != 0) then [Event.terminal] else []) := by
  induction ps with
  | nil =>
      intro k
      simp [runSeq, execCount]
  | cons p rest ih =>
      intro k
      by_cases h : p.proceedCalls = 0
      · simp [runSeq, execCount, h]
      · simp only [runSeq, execCount, h, if_false, ite_false]
        rw [List.range'_succ]
        simp [ih (k + 1), h]

/-- Under the single-`Proceed()` discipline (every plugin calls
`invocation.Proceed()` at most once), `proceedNext` with sufficient
fuel computes the reference run `runSeq` of the remaining plugin
suffix: same result, and the run's events appended to the trace. -/
theorem proceedNextF_runSeq (ps : List Interceptor) (tOut : Option GoErr)
    (hle : ∀ p ∈ ps, p.proceedCalls ≤ 1) :
    ∀ (f : Nat) (st : ChainState), ps.length - st.currentIndex < f →
      (proceedNextF ps tOut f st).1 =
        (runSeq tOut (ps.drop st.currentIndex) st.currentIndex).1 ∧
      (proceedNextF ps tOut f st).2.events =
        st.events ++ (runSeq tOut (ps.drop st.currentIndex) st.currentIndex).2 := by
  intro f
  induction f with
  | zero =>
      intro st h
      exact absurd h (Nat.not_lt_zero _)
  | succ f ih =>
      intro st h
      by_cases hidx : st.currentIndex < ps.length
      · have hdrop : ps.drop st.currentIndex =
            ps[st.currentIndex] :: ps.drop (st.currentIndex + 1) :=
          List.drop_eq_getElem_cons hidx
        have hmem : ps[st.currentIndex] ∈ ps := List.getElem_mem hidx
        have hp : ps[st.currentIndex].proceedCalls ≤ 1 := hle _ hmem
        rcases Nat.le_one_iff_eq_zero_or_eq_one.mp hp with h0 | h1
        · rw [hdrop]
          simp [proceedNextF, hidx, h0, iterChain, runSeq, enterState,
            List.get_eq_getElem]
        · have hnext := ih (enterState st st.currentIndex ps[st.currentIndex])
            (by simp only [enterState]; omega)
          simp only [enterState] at hnext
          rw [hdrop]
          simp [proceedNextF, hidx, h1, iterChain, runSeq, enterState,
            List.get_eq_getElem, hnext.1, hnext.2]
      · have hdrop : ps.drop st.currentIndex = [] :=
          List.drop_eq_nil_of_le (Nat.le_of_not_lt hidx)
        simp [proceedNextF, hidx, hdrop, runSeq]

/-- The events of one `Proceed` on a fresh chain under the
single-`Proceed()` discipline are exactly the reference run's
events. -/
theorem chainProceed_fresh_events (ps : List Interceptor) (tOut : Option GoErr)
    (ctx : List RollbackFn) (hle : ∀ p ∈ ps, p.proceedCalls ≤ 1) :
    ((newChain ps).Proceed tOut ctx).events = (runSeq tOut ps 0).2 := by
  have hrs := proceedNextF_runSeq ps tOut hle (ps.length + 1) ⟨0, ctx, []⟩ (by omega)
  unfold Chain.Proceed newChain
  simp only [Bool.false_eq_true, if_false, Nat.sub_zero]
  simpa using hrs.2

/-- How many times the terminal call runs in a reference run: once if
every plugin proceeds, never otherwise. -/
theorem count_terminal_runSeq (tOut : Option GoErr) (ps : List Interceptor) :
    (runSeq tOut ps 0).2.count Event.terminal =
      (if ps.all (fun p => p.proceedCalls != 0) then 1 else 0) := by
  rw [runSeq_events]
  rw [List.count_append]
  have hmap : ((List.range' 0 (execCount ps)).map Event.intercept).count
      Event.terminal = 0 := by
    rw [List.count_eq_zero]
    intro hmem
    rcases List.mem_map.mp hmem with ⟨j, -, hj⟩
    exact absurd hj (by simp)
  rw [hmap]
  split <;> rfl

/-! ## Claim C1 -/

/-- **C1** (counterexample).  The claim asserts that one chain
execution invokes the terminal call at most once unconditionally; but
`proceedNext` does not guard the exhausted state, so a single
interceptor that calls `invocation.Proceed()` twice drives the terminal
call twice. -/
theorem c1_counterexample :
    (((newChain [⟨0, [], 2, IRet.passthrough⟩]).Proceed none []).events.count
      Event.terminal) = 2 := by decide

/-- **C1** (corrected).  Under the single-`Proceed()` discipline (every
interceptor calls `invocation.Proceed()` at most once) one chain
execution invokes the terminal call at most once, and exactly once when
every interceptor calls it exactly once. -/
theorem c1_terminal_calls_amended (ps : List Interceptor) (tOut : Option GoErr)
    (ctx : List RollbackFn) (hle : ∀ p ∈ ps, p.proceedCalls ≤ 1) :
    ((newChain ps).Proceed tOut ctx).events.count Event.terminal ≤ 1 ∧
    ((∀ p ∈ ps, p.proceedCalls = 1) →
      ((newChain ps).Proceed tOut ctx).events.count Event.terminal = 1) := by
  rw [chainProceed_fresh_events ps tOut ctx hle, count_terminal_runSeq]
  constructor
  · split <;> omega
  · intro hall
    have hb : ps.all (fun p => p.proceedCalls != 0) = true := by
      rw [List.all_eq_true]
      intro p hp
      simp [hall p hp]
    simp [hb]

/-- Witness for C1: a one-interceptor chain whose interceptor proceeds
exactly once runs the terminal call exactly once. -/
theorem c1_witness :
    (∀ p ∈ ([⟨0, [], 1, IRet.passthrough⟩] : List Interceptor),
      p.proceedCalls ≤ 1) ∧
    (((newChain [⟨0, [], 1, IRet.passthrough⟩]).Proceed none []).events.count
        Event.terminal ≤ 1 ∧
      ((∀ p ∈ ([⟨0, [], 1, IRet.passthrough⟩] : List Interceptor),
          p.proceedCalls = 1) →
        ((newChain [⟨0, [], 1, IRet.passthrough⟩]).Proceed none []).events.count
          Event.terminal = 1)) :=
  ⟨by decide, c1_terminal_calls_amended [⟨0, [], 1, IRet.passthrough⟩] none []
    (by decide)⟩

/-! ## Claim C5 -/

/-- If the plugin at position `k` does not proceed, a reference run
executes at most the plugins up to and including position `k`. -/
theorem execCount_le_of_zero :
    ∀ (ps : List Interceptor) (k : Nat) (hk : k < ps.length),
      ps[k].proceedCalls = 0 → execCount ps ≤ k + 1
  | [], k, hk, _ => absurd hk (by simp)
  | p :: rest, 0, _, h0 => by
      simp only [List.getElem_cons_zero] at h0
      simp [execCount, h0]
  | p :: rest, k + 1, hk, h0 => by
      by_cases hp : p.proceedCalls = 0
      · simp [execCount, hp]
      · have hrec := execCount_le_of_zero rest k (by simpa using hk)
          (by simpa using h0)
        simp only [execCount, hp, if_false]
        omega

/-- **C5** (counterexample).  The claim asserts that whenever the
interceptor at position `k` returns without proceeding, no later
interceptor and no terminal call can run; but when an *earlier*
interceptor proceeds twice, its second `Proceed()` resumes the chain
past `k`: here plugin 1 never proceeds yet the terminal call runs. -/
theorem c5_counterexample :
    ([⟨0, [], 2, IRet.passthrough⟩, ⟨0, [], 0, IRet.ownOk⟩] :
        List Interceptor)[1].proceedCalls = 0 ∧
    ((newChain [⟨0, [], 2, IRet.passthrough⟩, ⟨0, [], 0, IRet.ownOk⟩]).Proceed
        none []).events =
      [Event.intercept 0, Event.intercept 1, Event.terminal] ∧
    Event.terminal ∈
      ((newChain [⟨0, [], 2, IRet.passthrough⟩, ⟨0, [], 0, IRet.ownOk⟩]).Proceed
        none []).events :=
  ⟨rfl, rfl, by decide⟩

/-- **C5** (corrected).  Under the single-`Proceed()` discipline, if
the interceptor at position `k` returns without calling
`invocation.Proceed()`, then no interceptor at a later position and not
the terminal call executes during that chain execution. -/
theorem c5_short_circuit_amended (ps : List Interceptor) (tOut : Option GoErr)
    (ctx : List RollbackFn) (k : Nat)
    (hle : ∀ p ∈ ps, p.proceedCalls ≤ 1) (hk : k < ps.length)
    (h0 : ps[k].proceedCalls = 0) :
    (∀ j, k < j →
      Event.intercept j ∉ ((newChain ps).Proceed tOut ctx).events) ∧
    Event.terminal ∉ ((newChain ps).Proceed tOut ctx).events := by
  rw [chainProceed_fresh_events ps tOut ctx hle, runSeq_events]
  have hall : ps.all (fun p => p.proceedCalls != 0) = false := by
    rw [List.all_eq_false]
    exact ⟨ps[k], List.getElem_mem hk, by simp [h0]⟩
  rw [hall]
  simp only [Bool.false_eq_true, if_false, List.append_nil]
  have hexec := execCount_le_of_zero ps k hk h0
  constructor
  · intro j hj hmem
    rcases List.mem_map.mp hmem with ⟨i, hi, hij⟩
    have hji : i = j := by
      cases hij
      rfl
    subst hji
    rw [List.mem_range'] at hi
    rcases hi with ⟨m, hm, hform⟩
    omega
  · intro hmem
    rcases List.mem_map.mp hmem with ⟨i, -, hij⟩
    exact absurd hij (by simp)

/-- Witness for C5: in a two-interceptor chain where each proceeds at
most once and the first never proceeds, the second interceptor and the
terminal call do not run. -/
theorem c5_witness :
    (∀ p ∈ ([⟨0, [], 0, IRet.ownOk⟩, ⟨0, [], 1, IRet.passthrough⟩] :
        List Interceptor), p.proceedCalls ≤ 1) ∧
    ((∀ j, 0 < j →
        Event.intercept j ∉
          ((newChain [⟨0, [], 0, IRet.ownOk⟩, ⟨0, [], 1, IRet.passthrough⟩]).Proceed
            none []).events) ∧
      Event.terminal ∉
        ((newChain [⟨0, [], 0, IRet.ownOk⟩, ⟨0, [], 1, IRet.passthrough⟩]).Proceed
          none []).events) :=
  ⟨by decide,
   c5_short_circuit_amended
     [⟨0, [], 0, IRet.ownOk⟩, ⟨0, [], 1, IRet.passthrough⟩] none [] 0
     (by decide) (by decide) (by decide)⟩

/-! ## Claim C3 -/

/-- **C3** (confirmed).  Whenever a (not yet completed) chain's
`Proceed` finishes with a non-nil error, every rollback callback
registered on the invocation context is executed, in strict reverse
registration order, collecting the individual callback errors without
stopping at the first failure; and if any rollback callback failed, the
returned error is the combination of the original error with the
rollback failures — it contains both. -/
theorem c3_rollback_on_error (ch : Chain) (tOut : Option GoErr)
    (ctx : List RollbackFn) (e : GoErr)
    (hc : ch.completed = false)
    (he : (ch.Proceed tOut ctx).value = some e) :
    (ch.Proceed tOut ctx).rollbacksRun =
      (ch.Proceed tOut ctx).registered.reverse ∧
    (ch.Proceed tOut ctx).rollbackErrs =
      (ch.Proceed tOut ctx).registered.reverse.filterMap (fun f => f.outcome) ∧
    ((ch.Proceed tOut ctx).rollbackErrs ≠ [] →
      ∃ orig, (ch.Proceed tOut ctx).raw = some orig ∧
        e = GoErr.combined orig (ch.Proceed tOut ctx).rollbackErrs ∧
        ErrInside orig e ∧
        ∀ s ∈ (ch.Proceed tOut ctx).rollbackErrs, ErrInside (GoErr.msg s) e) := by
  unfold Chain.Proceed at he ⊢
  rw [hc] at he ⊢
  simp only [Bool.false_eq_true, if_false] at he ⊢
  cases hout : (proceedNextF ch.plugins tOut
      (ch.plugins.length + 1 - ch.currentIndex)
      ⟨ch.currentIndex, ctx, []⟩).1 with
  | none =>
      rw [hout] at he
      simp at he
  | some e0 =>
      simp only at he ⊢
      refine ⟨runRollbackLoop_fst _, runRollbackLoop_snd _, ?_⟩
      intro hne
      rw [hout] at he
      simp only at he
      rw [if_neg hne] at he
      have he2 : e = GoErr.combined e0
          (runRollbackLoop (proceedNextF ch.plugins tOut
            (ch.plugins.length + 1 - ch.currentIndex)
            ⟨ch.currentIndex, ctx, []⟩).2.rollbackFuncs).2 :=
        (Option.some.injEq _ _ ▸ he).symm
      refine ⟨e0, rfl, he2, ?_, ?_⟩
      · rw [he2]
        exact ErrInside.inOrig (ErrInside.refl e0)
      · intro s hs
        rw [he2]
        exact ErrInside.inList hs

/-- Witness for C3: a chain whose interceptor fails after registering
two rollback callbacks, the first of which fails too — both callbacks
run in reverse order and the combined error carries the failure. -/
theorem c3_witness :
    ((newChain [⟨0, [⟨1, some "rb1"⟩, ⟨2, none⟩], 0,
        IRet.ownError (GoErr.msg "boom")⟩] : Chain).completed = false ∧
      ((newChain [⟨0, [⟨1, some "rb1"⟩, ⟨2, none⟩], 0,
          IRet.ownError (GoErr.msg "boom")⟩]).Proceed none []).value =
        some (GoErr.combined (GoErr.msg "boom") ["rb1"])) ∧
    (((newChain [⟨0, [⟨1, some "rb1"⟩, ⟨2, none⟩], 0,
        IRet.ownError (GoErr.msg "boom")⟩]).Proceed none []).rollbacksRun =
      ((newChain [⟨0, [⟨1, some "rb1"⟩, ⟨2, none⟩], 0,
        IRet.ownError (GoErr.msg "boom")⟩]).Proceed none []).registered.reverse ∧
    ((newChain [⟨0, [⟨1, some "rb1"⟩, ⟨2, none⟩], 0,
        IRet.ownError (GoErr.msg "boom")⟩]).Proceed none []).rollbackErrs =
      ((newChain [⟨0, [⟨1, some "rb1"⟩, ⟨2, none⟩], 0,
        IRet.ownError (GoErr.msg "boom")⟩]).Proceed
          none []).registered.reverse.filterMap (fun f => f.outcome) ∧
    (((newChain [⟨0, [⟨1, some "rb1"⟩, ⟨2, none⟩], 0,
        IRet.ownError (GoErr.msg "boom")⟩]).Proceed none []).rollbackErrs ≠ [] →
      ∃ orig, ((newChain [⟨0, [⟨1, some "rb1"⟩, ⟨2, none⟩], 0,
          IRet.ownError (GoErr.msg "boom")⟩]).Proceed none []).raw = some orig ∧
        GoErr.combined (GoErr.msg "boom") ["rb1"] =
          GoErr.combined orig
            ((newChain [⟨0, [⟨1, some "rb1"⟩, ⟨2, none⟩], 0,
              IRet.ownError (GoErr.msg "boom")⟩]).Proceed none []).rollbackErrs ∧
        ErrInside orig (GoErr.combined (GoErr.msg "boom") ["rb1"]) ∧
        ∀ s ∈ ((newChain [⟨0, [⟨1, some "rb1"⟩, ⟨2, none⟩], 0,
            IRet.ownError (GoErr.msg "boom")⟩]).Proceed none []).rollbackErrs,
          ErrInside (GoErr.msg s) (GoErr.combined (GoErr.msg "boom") ["rb1"]))) :=
  ⟨⟨rfl, rfl⟩,
   c3_rollback_on_error
     (newChain [⟨0, [⟨1, some "rb1"⟩, ⟨2, none⟩], 0,
       IRet.ownError (GoErr.msg "boom")⟩]) none []
     (GoErr.combined (GoErr.msg "boom") ["rb1"]) rfl rfl⟩

/-! ## Claim C4 -/

/-- **C4** (code bug).  The claim — and the chain's own one-shot
design — says the chain is marked completed at the end of every
`Proceed` execution, including when rollback callbacks also produced
errors, and that every subsequent `Proceed` is rejected with the
`ChainAlreadyCompleted` error running nothing.  On `c4ChainPlugins`
(interceptor fails, its rollback callback fails) the first `Proceed`
returns through the rollback-errors early return, skipping
`chain.completed = true`: the chain is left not-completed, and a second
`Proceed` on it is not rejected — it runs the terminal call again and
returns success. -/
theorem c4_code_bug_eval :
    ((newChain c4ChainPlugins).Proceed none []).value =
      some (GoErr.combined (GoErr.msg "boom") ["rollback failed"]) ∧
    ((newChain c4ChainPlugins).Proceed none []).chain.completed = false ∧
    (((newChain c4ChainPlugins).Proceed none []).chain.Proceed none
        ((newChain c4ChainPlugins).Proceed none []).registered).value = none ∧
    (((newChain c4ChainPlugins).Proceed none []).chain.Proceed none
        ((newChain c4ChainPlugins).Proceed none []).registered).events =
      [Event.terminal] := by
  refine ⟨rfl, rfl, rfl, rfl⟩

end GoBatis
